import Mathlib

/-!
Verification of the client-side synchronized cache and mutation coordinator
of the expert-dashboard repository.

The development shallowly embeds the two core source files:
the DataContext provider (full reload, realtime change-event handlers,
logout purge, derived user count) and the validate page
(the handleValidation confirm/correct workflow with conflict fallback and
compensating rollback).  Transport calls are modelled by explicit oracles
and fault-injection flags; every remote call made by a run is recorded in
a call log so that statements about which calls are issued, and in what
order, are direct equalities on that log.
-/

namespace ExpertDashboard

/-- Joined profile display fields (subset selected by the queries in
DataContext: id, username, full_name, email). -/
structure Profile where
  pid : String
  username : String
  full_name : String
  email : String
deriving DecidableEq, Repr

/-- A scan row as held in client state (types.ts interface Scan; the
fields the core logic reads).  `status` ranges over
"Pending Validation" | "Validated" | "Corrected". -/
structure Scan where
  id : Nat
  farmer_id : String
  scan_type : String
  ai_prediction : String
  status : String
  created_at : String
  updated_at : String
  expert_validation : Option String
  farmer_profile : Option Profile
deriving DecidableEq, Repr

/-- A validation_history row as held in client state
(types.ts interface ValidationHistory).  `status` ranges over
"Validated" | "Corrected". -/
structure ValidationHistory where
  id : Nat
  scan_id : Nat
  expert_id : String
  ai_prediction : String
  expert_validation : Option String
  status : String
  validated_at : String
  expert_comment : Option String
  expert_profile : Option Profile
deriving DecidableEq, Repr

/-- JS `x || null` on an optional string: the empty string is falsy and
collapses to null. -/
def orNull (o : Option String) : Option String :=
  match o with
  | some s => if s = "" then none else some s
  | none => none

/-- JS truthiness check on a numeric id taken from a partial payload:
`if (!newScan.id) return;` treats both a missing id and the id 0 as
absent. -/
def jsId : Option Nat → Option Nat
  | none => none
  | some i => if i = 0 then none else some i

/-- Body of the scans INSERT realtime handler state update
(DataContext: setScans in the INSERT branch): if a scan with the same id
is already present the previous state is returned unchanged, otherwise
the fetched scan is prepended. -/
def insertScanIntoState (fullScan : Scan) (prev : List Scan) : List Scan :=
  if prev.any (fun s => s.id == fullScan.id) then prev
  else fullScan :: prev

/-- Replace the first scan whose id matches, returning none when no scan
matches (the findIndex = -1 case). -/
def replaceFirstScan (fullScan : Scan) : List Scan → Option (List Scan)
  | [] => none
  | s :: rest =>
    if s.id = fullScan.id then some (fullScan :: rest)
    else (replaceFirstScan fullScan rest).map (fun l => s :: l)

/-- Body of the scans UPDATE realtime handler state update: overwrite the
entry at the found index, or prepend when the scan is not present. -/
def updateScanInState (fullScan : Scan) (prev : List Scan) : List Scan :=
  match replaceFirstScan fullScan prev with
  | none => fullScan :: prev
  | some l => l

/-- Body of the validation_history INSERT realtime handler state update:
skip when already present, else prepend. -/
def insertValidationIntoState (v : ValidationHistory) (prev : List ValidationHistory) :
    List ValidationHistory :=
  if prev.any (fun w => w.id == v.id) then prev
  else v :: prev

/-- Replace the first validation whose id matches. -/
def replaceFirstValidation (v : ValidationHistory) :
    List ValidationHistory → Option (List ValidationHistory)
  | [] => none
  | w :: rest =>
    if w.id = v.id then some (v :: rest)
    else (replaceFirstValidation v rest).map (fun l => w :: l)

/-- Body of the validation_history UPDATE realtime handler state update. -/
def updateValidationInState (v : ValidationHistory) (prev : List ValidationHistory) :
    List ValidationHistory :=
  match replaceFirstValidation v prev with
  | none => v :: prev
  | some l => l

/-- The "also update the corresponding scan status" step of the
validation_history INSERT and UPDATE handlers: patch the first scan whose
id equals the fetched validation record scan_id, deriving the new status
from the fetched validation record itself. -/
def propagateValidationToScans (v : ValidationHistory) : List Scan → List Scan
  | [] => []
  | s :: rest =>
    if s.id = v.scan_id then
      { s with
        status := if v.status = "Validated" then "Validated" else "Corrected",
        expert_validation := orNull v.expert_validation } :: rest
    else s :: propagateValidationToScans v rest

/-- The whole DataProvider client state: identity presence, the two
collections, the derived user count, and the two mutable flags
(initialFetched, isFetchingRef). -/
structure DataState where
  userPresent : Bool
  scans : List Scan
  validationHistory : List ValidationHistory
  totalUsers : Int
  initialFetched : Bool
  isFetching : Bool
deriving DecidableEq, Repr

/-- A point-fetch issued by a realtime handler. -/
inductive FetchCall
  | scan (id : Nat)
  | validation (id : Nat)
deriving DecidableEq, Repr

/-- A raw realtime change notification, carrying the payload id when the
partial row included one. -/
inductive ChangeEvent
  | scanInsert (newId : Option Nat)
  | scanUpdate (newId : Option Nat)
  | scanDelete (oldId : Option Nat)
  | validationInsert (newId : Option Nat)
  | validationUpdate (newId : Option Nat)
  | validationDelete (oldId : Option Nat)
  | profileInsert
  | profileDelete
deriving DecidableEq, Repr

/-- Result of applying one change notification: the new state plus the
list of point-fetches the handler issued. -/
structure ApplyResult where
  state : DataState
  fetches : List FetchCall
deriving DecidableEq, Repr

/-- The realtime change-event handlers of DataContext, one branch per
subscription.  `fetchScan` and `fetchValidation` are the point-fetch
oracles (fetchScanWithProfile and fetchValidationWithRelations); a `none`
answer is the fetch-failed-or-empty case, in which the event is dropped.
Every branch first checks `initialFetched` and ignores the event when the
initial full load has not completed. -/
def applyChangeEvent (fetchScan : Nat → Option Scan)
    (fetchValidation : Nat → Option ValidationHistory)
    (st : DataState) : ChangeEvent → ApplyResult
  | .scanInsert newId =>
    if !st.initialFetched then ⟨st, []⟩
    else
      match jsId newId with
      | none => ⟨st, []⟩
      | some i =>
        match fetchScan i with
        | none => ⟨st, [.scan i]⟩
        | some full => ⟨{ st with scans := insertScanIntoState full st.scans }, [.scan i]⟩
  | .scanUpdate newId =>
    if !st.initialFetched then ⟨st, []⟩
    else
      match jsId newId with
      | none => ⟨st, []⟩
      | some i =>
        match fetchScan i with
        | none => ⟨st, [.scan i]⟩
        | some full => ⟨{ st with scans := updateScanInState full st.scans }, [.scan i]⟩
  | .scanDelete oldId =>
    if !st.initialFetched then ⟨st, []⟩
    else
      match jsId oldId with
      | none => ⟨st, []⟩
      | some i => ⟨{ st with scans := st.scans.filter (fun s => s.id != i) }, []⟩
  | .validationInsert newId =>
    if !st.initialFetched then ⟨st, []⟩
    else
      match jsId newId with
      | none => ⟨st, []⟩
      | some i =>
        match fetchValidation i with
        | none => ⟨st, [.validation i]⟩
        | some v =>
          let hist := insertValidationIntoState v st.validationHistory
          let scans :=
            if v.scan_id ≠ 0 then propagateValidationToScans v st.scans else st.scans
          ⟨{ st with validationHistory := hist, scans := scans }, [.validation i]⟩
  | .validationUpdate newId =>
    if !st.initialFetched then ⟨st, []⟩
    else
      match jsId newId with
      | none => ⟨st, []⟩
      | some i =>
        match fetchValidation i with
        | none => ⟨st, [.validation i]⟩
        | some v =>
          let hist := updateValidationInState v st.validationHistory
          let scans :=
            if v.scan_id ≠ 0 then propagateValidationToScans v st.scans else st.scans
          ⟨{ st with validationHistory := hist, scans := scans }, [.validation i]⟩
  | .validationDelete oldId =>
    if !st.initialFetched then ⟨st, []⟩
    else
      match jsId oldId with
      | none => ⟨st, []⟩
      | some i =>
        ⟨{ st with validationHistory := st.validationHistory.filter (fun w => w.id != i) }, []⟩
  | .profileInsert =>
    if !st.initialFetched then ⟨st, []⟩
    else ⟨{ st with totalUsers := st.totalUsers + 1 }, []⟩
  | .profileDelete =>
    if !st.initialFetched then ⟨st, []⟩
    else ⟨{ st with totalUsers := max 0 (st.totalUsers - 1) }, []⟩

/-- The payload a completed full reload (fetchData) commits: both
collections and the exact profile count reported by the server
(a non-negative count; `count || 0`). -/
structure FetchedData where
  scans : List Scan
  validations : List ValidationHistory
  profileCount : Nat
deriving DecidableEq, Repr

/-- Top-level events of the DataProvider lifecycle.  A full reload is a
pair of events: `fetchStart` runs the guard at the top of fetchData, and
`fetchCommit`/`fetchFail` is the resolution of the awaited queries, which
the source runs with no further guard. -/
inductive ProviderEvent
  | fetchStart
  | fetchCommit (d : FetchedData)
  | fetchFail
  | change (e : ChangeEvent)
  | logout
deriving Repr

/-- One step of the DataProvider lifecycle.  `fetchStart` is the entry
guard of fetchData (`if (!isReady || isFetchingRef.current) return;`).
`fetchCommit` is the continuation after the awaited queries resolve: the
source commits the results and sets initialFetched without re-checking
identity presence.  `logout` is the purge effect that runs when the user
becomes absent (it does not touch isFetchingRef). -/
def providerStep (fetchScan : Nat → Option Scan)
    (fetchValidation : Nat → Option ValidationHistory)
    (st : DataState) : ProviderEvent → DataState
  | .fetchStart =>
    if st.userPresent && !st.isFetching then { st with isFetching := true } else st
  | .fetchCommit d =>
    if st.isFetching then
      { st with
        scans := d.scans
        validationHistory := d.validations
        totalUsers := (d.profileCount : Int)
        initialFetched := true
        isFetching := false }
    else st
  | .fetchFail =>
    if st.isFetching then { st with isFetching := false } else st
  | .change e => (applyChangeEvent fetchScan fetchValidation st e).state
  | .logout =>
    { st with
      userPresent := false
      scans := []
      validationHistory := []
      totalUsers := 0
      initialFetched := false }

/-- Initial provider state for a signed-in session before the first
load. -/
def initDataState : DataState :=
  { userPresent := true
    scans := []
    validationHistory := []
    totalUsers := 0
    initialFetched := false
    isFetching := false }

/-- Run the provider from the initial state over a list of events. -/
def runProvider (fetchScan : Nat → Option Scan)
    (fetchValidation : Nat → Option ValidationHistory)
    (events : List ProviderEvent) : DataState :=
  events.foldl (providerStep fetchScan fetchValidation) initDataState

/-! ## The validate workflow (handleValidation on the validate page) -/

/-- The action argument of handleValidation. -/
inductive VAction
  | confirm
  | correct
deriving DecidableEq, Repr

/-- Fault-injection model of the transport used by one handleValidation
run.  A uniqueness conflict on the history insert is not injected: it is
derived from the remote state (the insert reports code 23505 exactly when
a row with the same (scan_id, expert_id) key already exists). -/
structure Transport where
  scanUpdateOk : Bool
  historyInsertFails : Bool
  historyUpdateOk : Bool
  rollbackOk : Bool
deriving DecidableEq, Repr

/-- The exact insertPayload built by handleValidation. -/
structure HistoryPayload where
  scan_id : Nat
  expert_id : String
  ai_prediction : String
  expert_validation : String
  status : String
  validated_at : String
  expert_comment : Option String
deriving DecidableEq, Repr

/-- A transport call issued by a handleValidation run, with the payload
it carried. -/
inductive TCall
  | updateScan (id : Nat) (status : String) (updated_at : String)
  | insertHistory (p : HistoryPayload)
  | updateHistory (scan_id : Nat) (expert_id : String) (p : HistoryPayload)
  | refresh
deriving DecidableEq, Repr

/-- Is a call a scans-table status write? -/
def TCall.isScanWrite : TCall → Bool
  | .updateScan _ _ _ => true
  | _ => false

/-- The remote rows a handleValidation run touches: the status of the
target scan row and the validation_history table (rows keyed by their
column values; the server-assigned surrogate id is abstracted away). -/
structure RemoteState where
  scanStatus : String
  history : List HistoryPayload
deriving DecidableEq, Repr

/-- Local state of the validate page that handleValidation reads and
writes: the scan list from the shared DataContext, the per-scan draft
note and decision maps (keyed by scan id), the open-detail id, and the
single processingScanId in-flight marker. -/
structure PageState where
  scans : List Scan
  notes : List (Nat × String)
  decision : List (Nat × String)
  detailId : Option Nat
  processingScanId : Option Nat
deriving DecidableEq, Repr

/-- User-visible outcome of one handleValidation run. -/
inductive SubmitResult
  | blocked
  | precondFail (msg : String)
  | success (msg : String)
  | failure (msg : String)
deriving DecidableEq, Repr

/-- Everything one handleValidation run produced: the new page state, the
new remote state, the ordered transport call log, the user-visible
result, whether the compensating rollback ran, and whether a rollback
failure was logged. -/
structure RunOutcome where
  page : PageState
  remote : RemoteState
  calls : List TCall
  result : SubmitResult
  rollbackAttempted : Bool
  rollbackFailureLogged : Bool
deriving DecidableEq, Repr

/-- JS `x && x.trim().length > 0 ? x.trim() : ""` on a map lookup (the
corrected-value computation). -/
def trimmedOrEmpty (m : List (Nat × String)) (k : Nat) : String :=
  match m.lookup k with
  | some s => if 0 < s.trim.length then s.trim else ""
  | none => ""

/-- JS `x && x.trim().length > 0 ? x.trim() : null` on a map lookup (the
note computation). -/
def trimmedNote (m : List (Nat × String)) (k : Nat) : Option String :=
  match m.lookup k with
  | some s => if 0 < s.trim.length then some s.trim else none
  | none => none

/-- Target status of the transition: Validated for confirm, Corrected for
correct. -/
def targetStatus : VAction → String
  | .confirm => "Validated"
  | .correct => "Corrected"

/-- The determination value: the automated prediction for confirm, the
supplied corrected value (falling back to the prediction when falsy) for
correct. -/
def expertValidationFor (action : VAction) (sc : Scan) (corrected : String) : String :=
  match action with
  | .confirm => sc.ai_prediction
  | .correct => if corrected ≠ "" then corrected else sc.ai_prediction

/-- The failure toast text. -/
def failureMessage : VAction → String
  | .confirm => "Failed to confirm validation"
  | .correct => "Failed to correct validation"

/-- The success toast text. -/
def successMessage (scanId : Nat) : VAction → String
  | .confirm => "Validation for scan " ++ toString scanId ++ " confirmed"
  | .correct => "Validation for scan " ++ toString scanId ++ " corrected"

/-- The try/catch/finally body of handleValidation, entered after every
precondition passed and the in-flight marker was set.  `ts` is the
timestamp captured at the top of the run; `ts2` is the fresh timestamp
taken inside the rollback branch.  Control flow mirrors the source:
scan status update, history insert, conflict fallback update, success
continuation (toast, removeScanFromState, draft clearing, refresh), and
the catch branch issuing one compensating scan update when scanUpdated
was already true.  The finally branch resets the marker. -/
def runSubmitCore (tp : Transport) (ts ts2 : String) (uid : String)
    (st : PageState) (remote : RemoteState) (scanId : Nat) (action : VAction)
    (sc : Scan) (note : Option String) (expertValidation : String) : RunOutcome :=
  let status := targetStatus action
  let originalStatus := sc.status
  let payload : HistoryPayload :=
    { scan_id := scanId
      expert_id := uid
      ai_prediction := sc.ai_prediction
      expert_validation := expertValidation
      status := status
      validated_at := ts
      expert_comment := note }
  let call1 := TCall.updateScan scanId status ts
  let rollbackCall := TCall.updateScan scanId originalStatus ts2
  if tp.scanUpdateOk = false then
    { page := { st with processingScanId := none }
      remote := remote
      calls := [call1]
      result := .failure (failureMessage action)
      rollbackAttempted := false
      rollbackFailureLogged := false }
  else
    let remote1 : RemoteState := { remote with scanStatus := status }
    let successPage : PageState :=
      { scans := st.scans.filter (fun s => s.id != scanId)
        notes := st.notes.filter (fun kv => kv.1 != scanId)
        decision := st.decision.filter (fun kv => kv.1 != scanId)
        detailId := if st.detailId = some scanId then none else st.detailId
        processingScanId := none }
    let rollbackOutcome (pre : List TCall) : RunOutcome :=
      { page := { st with processingScanId := none }
        remote :=
          if tp.rollbackOk then { remote1 with scanStatus := originalStatus } else remote1
        calls := pre ++ [rollbackCall]
        result := .failure (failureMessage action)
        rollbackAttempted := true
        rollbackFailureLogged := !tp.rollbackOk }
    if tp.historyInsertFails then
      rollbackOutcome [call1, .insertHistory payload]
    else if remote1.history.any
        (fun r => r.scan_id == scanId && r.expert_id == uid) then
      -- insert reports uniqueness conflict 23505: update the existing
      -- record keyed by (scan_id, expert_id) with the same payload
      if tp.historyUpdateOk then
        { page := successPage
          remote :=
            { remote1 with
              history := remote1.history.map
                (fun r =>
                  if r.scan_id == scanId && r.expert_id == uid then payload else r) }
          calls := [call1, .insertHistory payload, .updateHistory scanId uid payload, .refresh]
          result := .success (successMessage scanId action)
          rollbackAttempted := false
          rollbackFailureLogged := false }
      else
        rollbackOutcome [call1, .insertHistory payload, .updateHistory scanId uid payload]
    else
      { page := successPage
        remote := { remote1 with history := payload :: remote1.history }
        calls := [call1, .insertHistory payload, .refresh]
        result := .success (successMessage scanId action)
        rollbackAttempted := false
        rollbackFailureLogged := false }

/-- The handleValidation entry point: the in-flight guard, the scan
lookup, the identity check, the draft note and corrected-value
computation, the empty-corrected-value precondition, the falsy
determination precondition, and then the try block. -/
def handleValidation (tp : Transport) (ts ts2 : String) (user : Option String)
    (st : PageState) (remote : RemoteState) (scanId : Nat) (action : VAction) :
    RunOutcome :=
  if st.processingScanId = some scanId then
    ⟨st, remote, [], .blocked, false, false⟩
  else
    match st.scans.find? (fun s => s.id == scanId) with
    | none => ⟨st, remote, [], .precondFail "Scan not found", false, false⟩
    | some selectedScan =>
      match user with
      | none =>
        ⟨st, remote, [], .precondFail "You must be signed in to validate scans.",
          false, false⟩
      | some uid =>
        let note := trimmedNote st.notes scanId
        let corrected := trimmedOrEmpty st.decision scanId
        if action = .correct ∧ corrected = "" then
          ⟨st, remote, [], .precondFail "Please select or enter the corrected result.",
            false, false⟩
        else
          let ev := expertValidationFor action selectedScan corrected
          if ev = "" then
            ⟨st, remote, [], .precondFail "Unable to determine validation result.",
              false, false⟩
          else
            runSubmitCore tp ts ts2 uid st remote scanId action selectedScan note ev

/-- The pending subset the validate page renders (the filtered memo). -/
def pendingScans (scans : List Scan) : List Scan :=
  scans.filter (fun s => s.status == "Pending Validation")

/-! ## The in-flight marker as a concurrency guard (for the temporal
claim about processingScanId).

The marker in the source is a single scalar `processingScanId`, set when
a run passes the guard and reset in the finally branch by a functional
update that only clears it when it still equals the own scan id.  To
state the temporal claim we track, next to the marker, the ghost multiset
of scan ids whose runs are currently outstanding. -/

/-- Marker plus ghost list of outstanding submit runs. -/
structure SubmitConc where
  marker : Option Nat
  outstanding : List Nat
deriving DecidableEq, Repr

/-- Start or finish of a submit run for a scan id. -/
inductive SubmitEvent
  | start (id : Nat)
  | finish (id : Nat)
deriving DecidableEq, Repr

/-- The guard at the top of handleValidation: a start is allowed exactly
when the marker does not currently equal the own id. -/
def startAllowed (st : SubmitConc) (i : Nat) : Bool :=
  st.marker != some i

/-- One step of the marker protocol: a start that passes the guard sets
the marker to the own id (overwriting whatever was there) and becomes
outstanding; a finish clears the marker only when it still equals the own
id (the functional update in the finally branch). -/
def submitStep (st : SubmitConc) : SubmitEvent → SubmitConc
  | .start i =>
    if startAllowed st i then
      { marker := some i, outstanding := i :: st.outstanding }
    else st
  | .finish i =>
    if i ∈ st.outstanding then
      { marker := if st.marker = some i then none else st.marker
        outstanding := st.outstanding.erase i }
    else st

/-- Initial marker state: nothing in flight. -/
def initSubmitConc : SubmitConc := { marker := none, outstanding := [] }

/-- Run the marker protocol over a list of events. -/
def runSubmitConc (events : List SubmitEvent) : SubmitConc :=
  events.foldl submitStep initSubmitConc

/-! ## Concrete fixtures used by witnesses and counterexamples -/

/-- A pending scan with id 1 and prediction Downy Mildew. -/
def scanA : Scan :=
  { id := 1
    farmer_id := "farmer-1"
    scan_type := "leaf_disease"
    ai_prediction := "Downy Mildew"
    status := "Pending Validation"
    created_at := "2024-01-01"
    updated_at := "2024-01-01"
    expert_validation := none
    farmer_profile := none }

/-- A different record carrying the same identity as `scanA`. -/
def scanB : Scan :=
  { scanA with ai_prediction := "Healthy", updated_at := "2024-01-02" }

/-- The pending scan of the spec scenario: id 42, prediction Downy
Mildew. -/
def scan42 : Scan :=
  { scanA with id := 42 }

/-- A fetched validation record for scan 1. -/
def validation7 : ValidationHistory :=
  { id := 7
    scan_id := 1
    expert_id := "expert-1"
    ai_prediction := "Downy Mildew"
    expert_validation := some "Healthy"
    status := "Corrected"
    validated_at := "2024-01-03"
    expert_comment := none
    expert_profile := none }

/-! ## Helper lemmas on the list-update primitives -/

theorem replaceFirstScan_none_iff (r : Scan) :
    ∀ l : List Scan, replaceFirstScan r l = none ↔ ∀ s ∈ l, s.id ≠ r.id := by
  intro l
  induction l with
  | nil => simp [replaceFirstScan]
  | cons s rest ih =>
    by_cases h : s.id = r.id
    · simp [replaceFirstScan, h]
    · simp [replaceFirstScan, h, Option.map_eq_none', ih]

theorem replaceFirstScan_some_eq {r₁ r₂ : Scan} (h : r₁.id = r₂.id) :
    ∀ (l l' : List Scan), replaceFirstScan r₁ l = some l' →
      replaceFirstScan r₂ l' = replaceFirstScan r₂ l := by
  intro l
  induction l with
  | nil => intro l' h'; simp [replaceFirstScan] at h'
  | cons s rest ih =>
    intro l' h'
    by_cases hid : s.id = r₁.id
    · have h1 : r₁ :: rest = l' := by
        simpa [replaceFirstScan, hid] using h'
      subst h1
      have h2 : r₁.id = r₂.id := h
      simp [replaceFirstScan, h2, hid.trans h]
    · have h2 : ∃ l'', replaceFirstScan r₁ rest = some l'' ∧ l' = s :: l'' := by
        rcases hr : replaceFirstScan r₁ rest with _ | l''
        · simp [replaceFirstScan, hid, hr] at h'
        · refine ⟨l'', rfl, ?_⟩
          have h3 : s :: l'' = l' := by
            simpa [replaceFirstScan, hid, hr] using h'
          exact h3.symm
      obtain ⟨l'', hr, rfl⟩ := h2
      have hid2 : s.id ≠ r₂.id := fun hc => hid (hc.trans h.symm)
      simp [replaceFirstScan, hid2, ih l'' hr]

theorem replaceFirstScan_map_id (r : Scan) :
    ∀ (l l' : List Scan), replaceFirstScan r l = some l' →
      l'.map Scan.id = l.map Scan.id := by
  intro l
  induction l with
  | nil => intro l' h'; simp [replaceFirstScan] at h'
  | cons s rest ih =>
    intro l' h'
    by_cases hid : s.id = r.id
    · have h1 : r :: rest = l' := by simpa [replaceFirstScan, hid] using h'
      subst h1
      simp [hid]
    · have h2 : ∃ l'', replaceFirstScan r rest = some l'' ∧ l' = s :: l'' := by
        rcases hr : replaceFirstScan r rest with _ | l''
        · simp [replaceFirstScan, hid, hr] at h'
        · refine ⟨l'', rfl, ?_⟩
          have h3 : s :: l'' = l' := by
            simpa [replaceFirstScan, hid, hr] using h'
          exact h3.symm
      obtain ⟨l'', hr, rfl⟩ := h2
      simp [ih l'' hr]

theorem updateScan_last_write_wins {r₁ r₂ : Scan} (h : r₁.id = r₂.id)
    (prev : List Scan) :
    updateScanInState r₂ (updateScanInState r₁ prev) = updateScanInState r₂ prev := by
  cases h1 : replaceFirstScan r₁ prev with
  | none =>
    have h2 : replaceFirstScan r₂ prev = none :=
      (replaceFirstScan_none_iff r₂ prev).mpr fun s hs hc =>
        ((replaceFirstScan_none_iff r₁ prev).mp h1) s hs (hc.trans h.symm)
    have h3 : updateScanInState r₁ prev = r₁ :: prev := by
      simp [updateScanInState, h1]
    have h4 : replaceFirstScan r₂ (r₁ :: prev) = some (r₂ :: prev) := by
      simp [replaceFirstScan, h]
    rw [h3]
    simp [updateScanInState, h2, h4]
  | some l' =>
    have h5 : updateScanInState r₁ prev = l' := by simp [updateScanInState, h1]
    rw [h5]
    unfold updateScanInState
    rw [replaceFirstScan_some_eq h prev l' h1]
    cases h3 : replaceFirstScan r₂ prev with
    | none =>
      have h4 : replaceFirstScan r₁ prev = none :=
        (replaceFirstScan_none_iff r₁ prev).mpr fun s hs hc =>
          ((replaceFirstScan_none_iff r₂ prev).mp h3) s hs (hc.trans h)
      rw [h4] at h1
      exact absurd h1 (by simp)
    | some l => simp

/-! ## C3: duplicate inserts and the shape of the upsert -/

/-- C3 counterexample: two insert notifications for the same identity with
different field values.  The scans INSERT handler retains the first
record untouched, so the final state differs from the state produced by
the last record alone: the stored entry is not overwritten. -/
theorem insert_retains_old_entry_counterexample :
    insertScanIntoState scanB (insertScanIntoState scanA []) = [scanA] ∧
    insertScanIntoState scanB [] = [scanB] ∧
    scanA ≠ scanB := by decide

/-- C3 amended: a duplicate insert for an identity already present is
idempotent because the INSERT handler skips it, retaining the stored
entry unchanged (it never appends a second entry); the UPDATE handler
does overwrite, and for update events the final state equals the state
produced by the last record alone; both handlers preserve the invariant
that no two entries share an identity. -/
theorem upsert_dedup_and_update_overwrites :
    (∀ (r : Scan) (prev : List Scan), (∃ s ∈ prev, s.id = r.id) →
      insertScanIntoState r prev = prev) ∧
    (∀ (r₁ r₂ : Scan), r₁.id = r₂.id → ∀ prev : List Scan,
      updateScanInState r₂ (updateScanInState r₁ prev) = updateScanInState r₂ prev) ∧
    (∀ (r : Scan) (prev : List Scan), (prev.map Scan.id).Nodup →
      ((insertScanIntoState r prev).map Scan.id).Nodup ∧
      ((updateScanInState r prev).map Scan.id).Nodup) := by
  refine ⟨?_, ?_, ?_⟩
  · rintro r prev ⟨s, hs, hid⟩
    have h : prev.any (fun s => s.id == r.id) = true :=
      List.any_eq_true.mpr ⟨s, hs, beq_iff_eq.mpr hid⟩
    simp [insertScanIntoState, h]
  · intro r₁ r₂ h prev
    exact updateScan_last_write_wins h prev
  · intro r prev hnd
    constructor
    · unfold insertScanIntoState
      split
      · exact hnd
      · next hany =>
        have hnotin : r.id ∉ prev.map Scan.id := by
          intro hmem
          obtain ⟨s, hs, hid⟩ := List.mem_map.mp hmem
          exact hany (List.any_eq_true.mpr ⟨s, hs, beq_iff_eq.mpr hid⟩)
        simpa using List.Nodup.cons (fun hmem => hnotin hmem) hnd
    · cases h1 : replaceFirstScan r prev with
      | none =>
        have hnone := (replaceFirstScan_none_iff r prev).mp h1
        have hnotin : r.id ∉ prev.map Scan.id := by
          intro hmem
          obtain ⟨s, hs, hid⟩ := List.mem_map.mp hmem
          exact hnone s hs hid
        have h3 : updateScanInState r prev = r :: prev := by
          simp [updateScanInState, h1]
        rw [h3]
        simpa using List.Nodup.cons (fun hmem => hnotin hmem) hnd
      | some l' =>
        have h5 : updateScanInState r prev = l' := by simp [updateScanInState, h1]
        rw [h5, replaceFirstScan_map_id r prev l' h1]
        exact hnd

/-- Witness for the amended C3 theorem at concrete inputs. -/
theorem upsert_dedup_witness :
    insertScanIntoState scanB [scanA] = [scanA] ∧
    updateScanInState scanB (updateScanInState scanA []) = updateScanInState scanB [] := by
  refine ⟨?_, ?_⟩
  · exact upsert_dedup_and_update_overwrites.1 scanB [scanA]
      ⟨scanA, by simp, by decide⟩
  · exact upsert_dedup_and_update_overwrites.2.1 scanA scanB (by decide) []

/-! ## C7: events arriving before the first full load -/

/-- C7: any change notification arriving before the initial full load has
completed is ignored entirely: no point-fetch is issued and the state is
unchanged. -/
theorem events_before_initial_load_ignored (fs : Nat → Option Scan)
    (fv : Nat → Option ValidationHistory) (st : DataState) (e : ChangeEvent)
    (h : st.initialFetched = false) :
    applyChangeEvent fs fv st e = ⟨st, []⟩ := by
  cases e <;> simp [applyChangeEvent, h]

/-- Witness for C7 at a concrete event and state. -/
theorem events_before_initial_load_ignored_witness :
    initDataState.initialFetched = false ∧
    applyChangeEvent (fun _ => none) (fun _ => none) initDataState
      ChangeEvent.profileInsert = ⟨initDataState, []⟩ :=
  ⟨rfl, events_before_initial_load_ignored _ _ _ _ rfl⟩

/-! ## C10: the derived total-user count -/

theorem applyChangeEvent_totalUsers_nonneg (fs : Nat → Option Scan)
    (fv : Nat → Option ValidationHistory) (st : DataState) (e : ChangeEvent)
    (h : 0 ≤ st.totalUsers) :
    0 ≤ (applyChangeEvent fs fv st e).state.totalUsers := by
  cases e <;> simp only [applyChangeEvent] <;> (repeat' split) <;> simp_all
  omega

theorem totalUsers_step_nonneg (fs : Nat → Option Scan)
    (fv : Nat → Option ValidationHistory) (st : DataState) (e : ProviderEvent)
    (h : 0 ≤ st.totalUsers) :
    0 ≤ (providerStep fs fv st e).totalUsers := by
  cases e with
  | fetchStart => simp only [providerStep]; split <;> simp_all
  | fetchCommit d => simp only [providerStep]; split <;> simp_all
  | fetchFail => simp only [providerStep]; split <;> simp_all
  | change e => exact applyChangeEvent_totalUsers_nonneg fs fv st e h
  | logout => simp [providerStep]

/-- C10: the derived total-user count starts at 0 and stays non-negative
under every sequence of provider events: profile inserts add one, profile
deletes clamp at 0, reload commits install a server count, logout resets
to 0. -/
theorem runProvider_totalUsers_nonneg :
    initDataState.totalUsers = 0 ∧
    ∀ (fs : Nat → Option Scan) (fv : Nat → Option ValidationHistory)
      (events : List ProviderEvent),
      0 ≤ (runProvider fs fv events).totalUsers := by
  refine ⟨rfl, ?_⟩
  intro fs fv events
  have key : ∀ (evs : List ProviderEvent) (st : DataState), 0 ≤ st.totalUsers →
      0 ≤ (evs.foldl (providerStep fs fv) st).totalUsers := by
    intro evs
    induction evs with
    | nil => intro st h; simpa using h
    | cons e rest ih =>
      intro st h
      exact ih _ (totalUsers_step_nonneg fs fv st e h)
  exact key events initDataState (by norm_num [initDataState])

/-! ## C6: a reload completing after logout -/

/-- Trace: a reload starts while signed in, the user logs out, then the
outstanding reload resolves. -/
def reloadAfterLogoutTrace : List ProviderEvent :=
  [.fetchStart, .logout, .fetchCommit ⟨[scanA], [], 5⟩]

/-- C6 counterexample: the fetched results of a reload that was still in
flight at logout ARE committed when it resolves: the provider ends with
no identity present yet a repopulated store and count. -/
theorem reload_commits_after_logout_counterexample :
    (runProvider (fun _ => none) (fun _ => none) reloadAfterLogoutTrace).userPresent
        = false ∧
    (runProvider (fun _ => none) (fun _ => none) reloadAfterLogoutTrace).scans
        = [scanA] ∧
    (runProvider (fun _ => none) (fun _ => none) reloadAfterLogoutTrace).totalUsers
        = 5 := by decide

/-- C6 amended: the identity-presence guard is checked only when a reload
starts, not again before the results are committed: a reload cannot start
without an identity, but a reload already in flight commits its fetched
results even when the identity has become absent (the logout purge runs
at logout time; a commit resolving afterwards repopulates the store). -/
theorem fetch_guard_checked_only_at_start (fs : Nat → Option Scan)
    (fv : Nat → Option ValidationHistory) (st : DataState) (d : FetchedData)
    (hout : st.userPresent = false)
    (hin : st.isFetching = true) :
    providerStep fs fv st ProviderEvent.fetchStart = st ∧
    (providerStep fs fv st (ProviderEvent.fetchCommit d)).scans = d.scans ∧
    (providerStep fs fv st (ProviderEvent.fetchCommit d)).initialFetched = true :=
  ⟨by simp [providerStep, hout], by simp [providerStep, hin], by simp [providerStep, hin]⟩

/-- Witness for the amended C6 theorem at a concrete in-flight state. -/
theorem fetch_guard_checked_only_at_start_witness :
    ({ initDataState with userPresent := false, isFetching := true } :
        DataState).userPresent = false ∧
    (providerStep (fun _ => none) (fun _ => none)
        { initDataState with userPresent := false, isFetching := true }
        (ProviderEvent.fetchCommit ⟨[scanA], [], 5⟩)).scans = [scanA] :=
  ⟨rfl,
    (fetch_guard_checked_only_at_start (fun _ => none) (fun _ => none)
      { initDataState with userPresent := false, isFetching := true }
      ⟨[scanA], [], 5⟩ rfl rfl).2.1⟩

/-! ## C5: the in-flight marker -/

/-- C5 counterexample: after a submit for scan 1 and then one for scan 2
have started, the run for scan 1 is still outstanding, yet the guard lets
a second submit for scan 1 start, because the single shared marker now
holds 2. -/
theorem marker_not_per_scan_counterexample :
    1 ∈ (runSubmitConc [.start 1, .start 2]).outstanding ∧
    startAllowed (runSubmitConc [.start 1, .start 2]) 1 = true ∧
    (runSubmitConc [.start 1, .start 2, .start 1]).outstanding = [1, 2, 1] := by
  decide

/-- C5 amended: the marker is one shared scalar, not a per-Scan marker.
Immediately after a submit for id i starts, a second start for i is
blocked (a no-op); but a submit for any different id j is never blocked
by it and proceeds, overwriting the marker. -/
theorem marker_blocks_only_current_id (st : SubmitConc) (i j : Nat) (h : i ≠ j) :
    submitStep (submitStep st (.start i)) (.start i) = submitStep st (.start i) ∧
    j ∈ (submitStep (submitStep st (.start i)) (.start j)).outstanding := by
  have hm : (submitStep st (.start i)).marker = some i := by
    by_cases hg : startAllowed st i = true
    · simp [submitStep, hg]
    · have hmk : st.marker = some i := by
        have h2 := hg
        simp [startAllowed, bne_iff_ne] at h2
        exact h2
      simp [submitStep, hg, hmk]
  refine ⟨?_, ?_⟩
  · generalize hs1 : submitStep st (.start i) = s1 at hm ⊢
    simp [submitStep, startAllowed, hm]
  · generalize hs1 : submitStep st (.start i) = s1 at hm ⊢
    simp [submitStep, startAllowed, hm, bne_iff_ne, h]

/-- Witness for the amended C5 theorem at ids 1 and 2. -/
theorem marker_blocks_only_current_id_witness :
    (1 : Nat) ≠ 2 ∧
    (submitStep (submitStep initSubmitConc (.start 1)) (.start 1)
        = submitStep initSubmitConc (.start 1) ∧
      2 ∈ (submitStep (submitStep initSubmitConc (.start 1)) (.start 2)).outstanding) :=
  ⟨by decide, marker_blocks_only_current_id initSubmitConc 1 2 (by decide)⟩

/-! ## C8: validation insert propagates the outcome onto the scan -/

theorem mem_insertValidationIntoState (v : ValidationHistory)
    (prev : List ValidationHistory) :
    ∃ w ∈ insertValidationIntoState v prev, w.id = v.id := by
  unfold insertValidationIntoState
  split
  · next hany =>
    obtain ⟨w, hw, hid⟩ := List.any_eq_true.mp hany
    exact ⟨w, hw, beq_iff_eq.mp hid⟩
  · exact ⟨v, by simp, rfl⟩

theorem find?_propagateValidationToScans (v : ValidationHistory) :
    ∀ (l : List Scan) (sc : Scan),
      l.find? (fun s => s.id == v.scan_id) = some sc →
      (propagateValidationToScans v l).find? (fun s => s.id == v.scan_id) =
        some { sc with
          status := if v.status = "Validated" then "Validated" else "Corrected",
          expert_validation := orNull v.expert_validation } := by
  intro l
  induction l with
  | nil => intro sc h; simp at h
  | cons s rest ih =>
    intro sc h
    by_cases hid : s.id = v.scan_id
    · have hcond : (s.id == v.scan_id) = true := beq_iff_eq.mpr hid
      have hsc : s = sc := by
        have h2 := h
        simp only [List.find?, hcond] at h2
        exact Option.some.inj h2
      subst hsc
      have hprop : propagateValidationToScans v (s :: rest) =
          { s with
            status := if v.status = "Validated" then "Validated" else "Corrected",
            expert_validation := orNull v.expert_validation } :: rest := by
        simp [propagateValidationToScans, hid]
      rw [hprop]
      simp only [List.find?, hcond]
    · have hcond : (s.id == v.scan_id) = false := by simp [hid]
      have h2 := h
      simp only [List.find?, hcond] at h2
      have hprop : propagateValidationToScans v (s :: rest) =
          s :: propagateValidationToScans v rest := by
        simp [propagateValidationToScans, hid]
      rw [hprop]
      simp only [List.find?, hcond]
      exact ih sc h2

/-- C8: processing an insert notification for a validation record whose
referenced scan is present patches that scan status (and denormalized
expert_validation) from the fetched validation record, in the same
applier step that stores the validation record; the only point-fetch
issued is the validation fetch, the scan is not re-queried. -/
theorem validation_insert_propagates_status (fs : Nat → Option Scan)
    (fv : Nat → Option ValidationHistory) (st : DataState) (i : Nat)
    (v : ValidationHistory) (sc : Scan)
    (hload : st.initialFetched = true)
    (hi : i ≠ 0)
    (hfetch : fv i = some v)
    (hsid : v.scan_id ≠ 0)
    (hstatus : v.status = "Validated" ∨ v.status = "Corrected")
    (hscan : st.scans.find? (fun s => s.id == v.scan_id) = some sc) :
    (applyChangeEvent fs fv st (.validationInsert (some i))).fetches
        = [FetchCall.validation i] ∧
    (∃ w ∈ (applyChangeEvent fs fv st (.validationInsert (some i))).state.validationHistory,
        w.id = v.id) ∧
    (applyChangeEvent fs fv st (.validationInsert (some i))).state.scans.find?
        (fun s => s.id == v.scan_id) =
      some { sc with
        status := v.status
        expert_validation := orNull v.expert_validation } := by
  have hjs : jsId (some i) = some i := by simp [jsId, hi]
  have hstat : (if v.status = "Validated" then "Validated" else "Corrected") = v.status := by
    rcases hstatus with h | h
    · simp [h]
    · simp [h]
  have hred : applyChangeEvent fs fv st (.validationInsert (some i)) =
      ⟨{ st with
          validationHistory := insertValidationIntoState v st.validationHistory
          scans := propagateValidationToScans v st.scans },
        [FetchCall.validation i]⟩ := by
    simp [applyChangeEvent, hload, hjs, hfetch, hsid]
  rw [hred]
  refine ⟨rfl, mem_insertValidationIntoState v st.validationHistory, ?_⟩
  rw [show ({ st with
        validationHistory := insertValidationIntoState v st.validationHistory
        scans := propagateValidationToScans v st.scans } : DataState).scans =
      propagateValidationToScans v st.scans from rfl]
  rw [find?_propagateValidationToScans v st.scans sc hscan, hstat]

/-- Witness for C8 at a concrete state, event and fetched record. -/
theorem validation_insert_propagates_status_witness :
    ({ initDataState with initialFetched := true, scans := [scanA] } :
        DataState).initialFetched = true ∧
    (7 : Nat) ≠ 0 ∧
    (applyChangeEvent (fun _ => none) (fun k => if k = 7 then some validation7 else none)
        { initDataState with initialFetched := true, scans := [scanA] }
        (.validationInsert (some 7))).state.scans.find?
      (fun s => s.id == validation7.scan_id) =
      some { scanA with
        status := validation7.status
        expert_validation := orNull validation7.expert_validation } := by
  refine ⟨rfl, by decide, ?_⟩
  exact (validation_insert_propagates_status (fun _ => none)
    (fun k => if k = 7 then some validation7 else none)
    { initDataState with initialFetched := true, scans := [scanA] } 7 validation7 scanA
    rfl (by decide) (by decide) (by decide) (Or.inr rfl) (by decide)).2.2

/-! ## C9: correct with an empty corrected value -/

/-- C9: a submit with action correct and an empty (or whitespace-only)
corrected value is rejected before any remote step: no transport call is
made and both the page state and the remote state are unchanged. -/
theorem correct_empty_value_no_transport (tp : Transport) (ts ts2 : String)
    (user : Option String) (st : PageState) (remote : RemoteState) (scanId : Nat)
    (h : trimmedOrEmpty st.decision scanId = "") :
    (handleValidation tp ts ts2 user st remote scanId .correct).calls = [] ∧
    (handleValidation tp ts ts2 user st remote scanId .correct).page = st ∧
    (handleValidation tp ts ts2 user st remote scanId .correct).remote = remote := by
  unfold handleValidation
  by_cases hg : st.processingScanId = some scanId
  · simp [hg]
  · rw [if_neg hg]
    cases hf : st.scans.find? (fun s => s.id == scanId) with
    | none => simp
    | some sc =>
      cases user with
      | none => simp
      | some uid => simp [h]

/-- Witness for C9 with an empty decision map. -/
theorem correct_empty_value_no_transport_witness :
    trimmedOrEmpty ([] : List (Nat × String)) 42 = "" ∧
    (handleValidation ⟨true, false, true, true⟩ "t1" "t2" (some "expert-1")
        ⟨[scan42], [], [], none, none⟩ ⟨"Pending Validation", []⟩ 42 .correct).calls
      = [] :=
  ⟨rfl,
    (correct_empty_value_no_transport ⟨true, false, true, true⟩ "t1" "t2"
      (some "expert-1") ⟨[scan42], [], [], none, none⟩ ⟨"Pending Validation", []⟩
      42 rfl).1⟩

/-! ## The submit workflow theorems (C1, C2, C4) -/

/-- Page fixture: one pending scan with id 42, empty draft maps, nothing
in flight. -/
def basePage : PageState :=
  { scans := [scan42]
    notes := []
    decision := []
    detailId := none
    processingScanId := none }

/-- Remote fixture: the scan row is pending and no validation record
exists yet. -/
def baseRemote : RemoteState :=
  { scanStatus := "Pending Validation", history := [] }

/-- Remote fixture with an existing validation record for
(scan 42, expert-1), the uniqueness-conflict situation. -/
def priorRow : HistoryPayload :=
  { scan_id := 42
    expert_id := "expert-1"
    ai_prediction := "Downy Mildew"
    expert_validation := "Downy Mildew"
    status := "Validated"
    validated_at := "t0"
    expert_comment := none }

def remoteWithPrior : RemoteState :=
  { scanStatus := "Validated", history := [priorRow] }

/-- When every precondition passes, handleValidation reaches the try
block with the selected scan, the trimmed note, and the computed
determination value. -/
theorem handleValidation_reaches_core (tp : Transport) (ts ts2 uid : String)
    (st : PageState) (remote : RemoteState) (scanId : Nat) (action : VAction)
    (sc : Scan)
    (hguard : st.processingScanId ≠ some scanId)
    (hfind : st.scans.find? (fun s => s.id == scanId) = some sc)
    (hcorr : ¬ (action = VAction.correct ∧ trimmedOrEmpty st.decision scanId = ""))
    (hev : expertValidationFor action sc (trimmedOrEmpty st.decision scanId) ≠ "") :
    handleValidation tp ts ts2 (some uid) st remote scanId action =
      runSubmitCore tp ts ts2 uid st remote scanId action sc
        (trimmedNote st.notes scanId)
        (expertValidationFor action sc (trimmedOrEmpty st.decision scanId)) := by
  unfold handleValidation
  rw [if_neg hguard, hfind]
  simp only [hcorr, if_false, hev]

/-- C2: every successful confirm submit ends with the remote scan status
Validated, a validation record for that scan with status Validated and a
determination equal to the original automated prediction, and the scan
absent from the pending subset of the local store. -/
theorem confirm_success_postconditions (tp : Transport) (ts ts2 uid : String)
    (st : PageState) (remote : RemoteState) (scanId : Nat) (sc : Scan)
    (hguard : st.processingScanId ≠ some scanId)
    (hfind : st.scans.find? (fun s => s.id == scanId) = some sc)
    (hpred : sc.ai_prediction ≠ "")
    (hupd : tp.scanUpdateOk = true)
    (hins : tp.historyInsertFails = false)
    (hcu : tp.historyUpdateOk = true) :
    (handleValidation tp ts ts2 (some uid) st remote scanId VAction.confirm).result
        = SubmitResult.success (successMessage scanId VAction.confirm) ∧
    (handleValidation tp ts ts2 (some uid) st remote scanId
        VAction.confirm).remote.scanStatus = "Validated" ∧
    (∃ p ∈ (handleValidation tp ts ts2 (some uid) st remote scanId
        VAction.confirm).remote.history,
      p.scan_id = scanId ∧ p.status = "Validated" ∧
        p.expert_validation = sc.ai_prediction) ∧
    (∀ s ∈ pendingScans (handleValidation tp ts ts2 (some uid) st remote scanId
        VAction.confirm).page.scans, s.id ≠ scanId) := by
  have hcorr : ¬ (VAction.confirm = VAction.correct ∧
      trimmedOrEmpty st.decision scanId = "") := by
    rintro ⟨hc, -⟩
    cases hc
  have hev : expertValidationFor VAction.confirm sc (trimmedOrEmpty st.decision scanId)
      ≠ "" := hpred
  rw [handleValidation_reaches_core tp ts ts2 uid st remote scanId VAction.confirm sc
    hguard hfind hcorr hev]
  have hpend : ∀ l : List Scan,
      ∀ s ∈ pendingScans (l.filter (fun s => s.id != scanId)), s.id ≠ scanId := by
    intro l s hs
    have h1 := (List.mem_filter.mp hs).1
    have h2 := (List.mem_filter.mp h1).2
    simpa using h2
  by_cases hc : remote.history.any
      (fun r => r.scan_id == scanId && r.expert_id == uid) = true
  · obtain ⟨r, hr, hrb⟩ := List.any_eq_true.mp hc
    obtain ⟨hr1, hr2⟩ : r.scan_id = scanId ∧ r.expert_id = uid := by
      simpa using hrb
    refine ⟨?_, ?_, ?_, ?_⟩
    · simp [runSubmitCore, hupd, hins, hc, hcu, targetStatus]
    · simp [runSubmitCore, hupd, hins, hc, hcu, targetStatus]
    · simp only [runSubmitCore, hupd, hins, hc, hcu]
      simp only [Bool.true_eq_false, if_false, if_true, ite_true, ite_false]
      refine ⟨_, List.mem_map_of_mem _ hr, ?_⟩
      simp [hr1, hr2, targetStatus, expertValidationFor]
    · intro s hs
      refine hpend st.scans s ?_
      simpa [runSubmitCore, hupd, hins, hc, hcu] using hs
  · have hcf : remote.history.any
        (fun r => r.scan_id == scanId && r.expert_id == uid) = false :=
      Bool.not_eq_true _ |>.mp hc
    refine ⟨?_, ?_, ?_, ?_⟩
    · simp [runSubmitCore, hupd, hins, hcf, targetStatus]
    · simp [runSubmitCore, hupd, hins, hcf, targetStatus]
    · simp only [runSubmitCore, hupd, hins, hcf]
      simp only [Bool.true_eq_false, if_false, if_true, ite_true, ite_false]
      refine ⟨_, List.mem_cons_self _ _, ?_⟩
      simp [targetStatus, expertValidationFor]
    · intro s hs
      refine hpend st.scans s ?_
      simpa [runSubmitCore, hupd, hins, hcf] using hs

/-- Witness for C2: the spec scenario, scan 42 with prediction Downy
Mildew, confirm succeeds. -/
theorem confirm_success_witness :
    basePage.processingScanId ≠ some 42 ∧
    (handleValidation ⟨true, false, true, true⟩ "t1" "t2" (some "expert-1")
        basePage baseRemote 42 VAction.confirm).result
      = SubmitResult.success (successMessage 42 VAction.confirm) ∧
    (handleValidation ⟨true, false, true, true⟩ "t1" "t2" (some "expert-1")
        basePage baseRemote 42 VAction.confirm).remote.scanStatus = "Validated" := by
  have h := confirm_success_postconditions ⟨true, false, true, true⟩ "t1" "t2"
    "expert-1" basePage baseRemote 42 scan42 (by decide) (by decide) (by decide)
    rfl rfl rfl
  exact ⟨by decide, h.1, h.2.1⟩

/-- C4: when the history insert hits a uniqueness conflict (a record for
the same (scan, expert) key already exists) and the fallback update
succeeds, the run issues exactly the conflict-update call keyed by
(scan_id, expert_id) with the same payload, patches the existing remote
record, and completes as a success. -/
theorem conflict_updates_existing_record (tp : Transport) (ts ts2 uid : String)
    (st : PageState) (remote : RemoteState) (scanId : Nat) (action : VAction)
    (sc : Scan)
    (hguard : st.processingScanId ≠ some scanId)
    (hfind : st.scans.find? (fun s => s.id == scanId) = some sc)
    (hcorr : ¬ (action = VAction.correct ∧ trimmedOrEmpty st.decision scanId = ""))
    (hev : expertValidationFor action sc (trimmedOrEmpty st.decision scanId) ≠ "")
    (hupd : tp.scanUpdateOk = true)
    (hins : tp.historyInsertFails = false)
    (hdup : remote.history.any
      (fun r => r.scan_id == scanId && r.expert_id == uid) = true)
    (hcu : tp.historyUpdateOk = true) :
    (handleValidation tp ts ts2 (some uid) st remote scanId action).calls =
      [TCall.updateScan scanId (targetStatus action) ts,
        TCall.insertHistory
          ⟨scanId, uid, sc.ai_prediction,
            expertValidationFor action sc (trimmedOrEmpty st.decision scanId),
            targetStatus action, ts, trimmedNote st.notes scanId⟩,
        TCall.updateHistory scanId uid
          ⟨scanId, uid, sc.ai_prediction,
            expertValidationFor action sc (trimmedOrEmpty st.decision scanId),
            targetStatus action, ts, trimmedNote st.notes scanId⟩,
        TCall.refresh] ∧
    (handleValidation tp ts ts2 (some uid) st remote scanId action).result
        = SubmitResult.success (successMessage scanId action) ∧
    (handleValidation tp ts ts2 (some uid) st remote scanId action).remote.history =
      remote.history.map (fun r =>
        if r.scan_id == scanId && r.expert_id == uid then
          ⟨scanId, uid, sc.ai_prediction,
            expertValidationFor action sc (trimmedOrEmpty st.decision scanId),
            targetStatus action, ts, trimmedNote st.notes scanId⟩
        else r) := by
  rw [handleValidation_reaches_core tp ts ts2 uid st remote scanId action sc
    hguard hfind hcorr hev]
  simp only [runSubmitCore, hupd, hins, hdup, hcu]
  exact ⟨by simp, by simp, by simp⟩

/-- Witness for C4: expert-1 re-acts on scan 42, the existing record is
updated and the run succeeds. -/
theorem conflict_updates_existing_record_witness :
    remoteWithPrior.history.any
        (fun r => r.scan_id == 42 && r.expert_id == "expert-1") = true ∧
    (handleValidation ⟨true, false, true, true⟩ "t1" "t2" (some "expert-1")
        basePage remoteWithPrior 42 VAction.confirm).result
      = SubmitResult.success (successMessage 42 VAction.confirm) := by
  have h := conflict_updates_existing_record ⟨true, false, true, true⟩ "t1" "t2"
    "expert-1" basePage remoteWithPrior 42 VAction.confirm scan42 (by decide)
    (by decide) (by decide) (by decide) rfl rfl (by decide) rfl
  exact ⟨by decide, h.2.1⟩

/-- C1: whenever the scan status transition succeeded and the history
step then failed (a plain insert failure, or a conflict whose fallback
update failed), the run issues exactly one compensating scan update
carrying the pre-call status, as its final transport call, and never
retries it; when the transport accepts it the remote status is reverted,
and when the compensating write itself fails the failure is only logged
(the remote status stays at the target status and no further call is
made). -/
theorem rollback_on_partial_failure (tp : Transport) (ts ts2 uid : String)
    (st : PageState) (remote : RemoteState) (scanId : Nat) (action : VAction)
    (sc : Scan)
    (hguard : st.processingScanId ≠ some scanId)
    (hfind : st.scans.find? (fun s => s.id == scanId) = some sc)
    (hcorr : ¬ (action = VAction.correct ∧ trimmedOrEmpty st.decision scanId = ""))
    (hev : expertValidationFor action sc (trimmedOrEmpty st.decision scanId) ≠ "")
    (hupd : tp.scanUpdateOk = true)
    (hfail : tp.historyInsertFails = true ∨
      (tp.historyInsertFails = false ∧
        remote.history.any (fun r => r.scan_id == scanId && r.expert_id == uid)
          = true ∧
        tp.historyUpdateOk = false)) :
    (handleValidation tp ts ts2 (some uid) st remote scanId action).rollbackAttempted
        = true ∧
    ((handleValidation tp ts ts2 (some uid) st remote scanId action).calls =
        [TCall.updateScan scanId (targetStatus action) ts,
          TCall.insertHistory
            ⟨scanId, uid, sc.ai_prediction,
              expertValidationFor action sc (trimmedOrEmpty st.decision scanId),
              targetStatus action, ts, trimmedNote st.notes scanId⟩,
          TCall.updateScan scanId sc.status ts2] ∨
      (handleValidation tp ts ts2 (some uid) st remote scanId action).calls =
        [TCall.updateScan scanId (targetStatus action) ts,
          TCall.insertHistory
            ⟨scanId, uid, sc.ai_prediction,
              expertValidationFor action sc (trimmedOrEmpty st.decision scanId),
              targetStatus action, ts, trimmedNote st.notes scanId⟩,
          TCall.updateHistory scanId uid
            ⟨scanId, uid, sc.ai_prediction,
              expertValidationFor action sc (trimmedOrEmpty st.decision scanId),
              targetStatus action, ts, trimmedNote st.notes scanId⟩,
          TCall.updateScan scanId sc.status ts2]) ∧
    ((handleValidation tp ts ts2 (some uid) st remote scanId action).calls.filter
        TCall.isScanWrite).length = 2 ∧
    (handleValidation tp ts ts2 (some uid) st remote scanId action).result
        = SubmitResult.failure (failureMessage action) ∧
    (tp.rollbackOk = true →
      (handleValidation tp ts ts2 (some uid) st remote scanId
        action).remote.scanStatus = sc.status) ∧
    (tp.rollbackOk = false →
      (handleValidation tp ts ts2 (some uid) st remote scanId
          action).rollbackFailureLogged = true ∧
      (handleValidation tp ts ts2 (some uid) st remote scanId
          action).remote.scanStatus = targetStatus action) := by
  rw [handleValidation_reaches_core tp ts ts2 uid st remote scanId action sc
    hguard hfind hcorr hev]
  rcases hfail with h1 | ⟨h1, h2, h3⟩
  · simp only [runSubmitCore, hupd, h1]
    refine ⟨by simp, Or.inl (by simp), by simp [TCall.isScanWrite], by simp, ?_, ?_⟩
    · intro hro
      simp [hro]
    · intro hro
      simp [hro]
  · simp only [runSubmitCore, hupd, h1, h2, h3]
    refine ⟨by simp, Or.inr (by simp), by simp [TCall.isScanWrite], by simp, ?_, ?_⟩
    · intro hro
      simp [hro]
    · intro hro
      simp [hro]

/-- Witness for C1: the history insert fails outright and the
compensating write itself fails; the rollback is attempted once and the
failure is only logged. -/
theorem rollback_on_partial_failure_witness :
    (⟨true, true, true, false⟩ : Transport).scanUpdateOk = true ∧
    (handleValidation ⟨true, true, true, false⟩ "t1" "t2" (some "expert-1")
        basePage baseRemote 42 VAction.confirm).rollbackAttempted = true ∧
    ((handleValidation ⟨true, true, true, false⟩ "t1" "t2" (some "expert-1")
        basePage baseRemote 42 VAction.confirm).calls.filter
      TCall.isScanWrite).length = 2 := by
  have h := rollback_on_partial_failure ⟨true, true, true, false⟩ "t1" "t2"
    "expert-1" basePage baseRemote 42 VAction.confirm scan42 (by decide)
    (by decide) (by decide) (by decide) rfl (Or.inl rfl)
  exact ⟨rfl, h.1, h.2.2.1⟩

end ExpertDashboard
